import Mathlib

/-!
Shallow embedding of the Logosphera quote-harvesting pipeline
(merge_quotes.py, import_to_postgres.py, harvest_pipeline.py,
harvest_citaty_net.py) and proofs about its specification.
-/

set_option maxHeartbeats 1000000

namespace Logosphera

/-! ### Python string primitives -/

/-- Whitespace characters recognized by Python `str.split` / `str.strip` and
by the regex class `\s` (ASCII range). -/
def pyIsSpace (c : Char) : Bool :=
  c == ' ' || c == '\t' || c == '\n' || c == '\r' || c == '\x0b' || c == '\x0c'

/-- Python `str.strip()` on a character list. -/
def pyStripL (cs : List Char) : List Char :=
  ((cs.dropWhile pyIsSpace).reverse.dropWhile pyIsSpace).reverse

/-- Python `str.strip()`. -/
def pyStrip (s : String) : String :=
  ⟨pyStripL s.data⟩

/-- Helper for `pyWordsL`: accumulates the current word in reverse. -/
def pyWordsAux : List Char → List Char → List (List Char)
  | [], acc => if acc = [] then [] else [acc.reverse]
  | c :: t, acc =>
    if pyIsSpace c then
      if acc = [] then pyWordsAux t [] else acc.reverse :: pyWordsAux t []
    else pyWordsAux t (c :: acc)

/-- Python `str.split()` with no argument: maximal runs of non-whitespace. -/
def pyWordsL (cs : List Char) : List (List Char) :=
  pyWordsAux cs []

/-- The idiom `' '.join(text.split())` used by every validator in the repo:
collapse internal whitespace to single spaces and trim the ends. -/
def pyCollapseL (cs : List Char) : List Char :=
  List.intercalate [' '] (pyWordsL cs)

/-- The `' '.join(text.split())` idiom on strings. -/
def pyCollapseWs (s : String) : String :=
  ⟨pyCollapseL s.data⟩

/-- Bool-valued test that a character lies in a closed codepoint range. -/
def charBetween (lo hi c : Char) : Bool :=
  decide (lo ≤ c) && decide (c ≤ hi)

/-- Python `str.lower()` on one character, modelled for the alphabets the
corpus uses: ASCII letters and the Russian Cyrillic block (А–Я, Ё). -/
def pyLowerChar (c : Char) : Char :=
  if charBetween 'A' 'Z' c then Char.ofNat (c.toNat + 32)
  else if charBetween 'А' 'Я' c then Char.ofNat (c.toNat + 32)
  else if c == 'Ё' then 'ё'
  else c

/-- Python `str.lower()`. -/
def pyLowerStr (s : String) : String :=
  ⟨s.data.map pyLowerChar⟩

/-- Python `str.isupper()` on one character (ASCII + Cyrillic). -/
def pyIsUpperChar (c : Char) : Bool :=
  charBetween 'A' 'Z' c || charBetween 'А' 'Я' c || c == 'Ё'

def isAsciiUpper (c : Char) : Bool := charBetween 'A' 'Z' c

def isAsciiLower (c : Char) : Bool := charBetween 'a' 'z' c

def isCyrUpper (c : Char) : Bool := charBetween 'А' 'Я' c || c == 'Ё'

def isCyrLower (c : Char) : Bool := charBetween 'а' 'я' c || c == 'ё'

def isCyrLetter (c : Char) : Bool := isCyrUpper c || isCyrLower c

/-- Regex word character `\w` over the alphabets the sources use:
ASCII alphanumerics, underscore, Cyrillic letters. -/
def isWordChar (c : Char) : Bool :=
  isAsciiUpper c || isAsciiLower c || c.isDigit || c == '_' || isCyrLetter c

/-- Helper for `wordRuns`: accumulates the current word-character run. -/
def wordRunsAux : List Char → List Char → List (List Char)
  | [], acc => if acc = [] then [] else [acc.reverse]
  | c :: t, acc =>
    if isWordChar c then wordRunsAux t (c :: acc)
    else if acc = [] then wordRunsAux t []
    else acc.reverse :: wordRunsAux t []

/-- Maximal runs of word characters; a regex `\bword\b` matches a text
exactly when `word` is one of these runs. -/
def wordRuns (cs : List Char) : List (List Char) :=
  wordRunsAux cs []

/-- Does `needle` occur as a prefix of `hay`? -/
def seqIsPrefixOf : List Char → List Char → Bool
  | [], _ => true
  | _ :: _, [] => false
  | a :: as, b :: bs => a == b && seqIsPrefixOf as bs

/-- Does `needle` occur as a contiguous subsequence of the list? -/
def containsSeq (needle : List Char) : List Char → Bool
  | [] => seqIsPrefixOf needle []
  | c :: t => seqIsPrefixOf needle (c :: t) || containsSeq needle t

/-! ### The validity predicate `is_valid_quotation` (import_to_postgres.py) -/

/-- One character of the Roman-numeral alphabet `[IVXLCDM]`, case-insensitive. -/
def romanChar (c : Char) : Bool :=
  let l := pyLowerChar c
  l == 'i' || l == 'v' || l == 'x' || l == 'l' || l == 'c' || l == 'd' || l == 'm'

/-- Regex `\b[IVXLCDM]{2,}\b` with IGNORECASE: some maximal word run of
length at least two consists solely of Roman-numeral letters. -/
def hasRomanToken (cs : List Char) : Bool :=
  (wordRuns cs).any fun r => decide (2 ≤ r.length) && r.all romanChar

/-- Regex `\bkw\b` with IGNORECASE for a literal lowercase keyword `kw`:
some maximal word run case-folds to the keyword. -/
def keywordHit (cs : List Char) (kw : String) : Bool :=
  (wordRuns cs).any fun r => r.map pyLowerChar == kw.data

/-- Try to match `U L+ \s+ U L+` at the head of the list, where `U`/`L` are
the given uppercase/lowercase letter classes (the bodies of the two-word
proper-name regexes). -/
def namePairAt (up lo : Char → Bool) (cs : List Char) : Bool :=
  match cs with
  | c₀ :: rest =>
    if up c₀ then
      match rest with
      | c₁ :: rest₁ =>
        if lo c₁ then
          match rest₁.dropWhile lo with
          | c₂ :: rest₂ =>
            if pyIsSpace c₂ then
              match rest₂.dropWhile pyIsSpace with
              | c₃ :: rest₃ =>
                if up c₃ then
                  match rest₃ with
                  | c₄ :: _ => lo c₄
                  | [] => false
                else false
              | [] => false
            else false
          | [] => false
        else false
      | [] => false
    else false
  | [] => false

/-- Helper scan for `hasNamePair`: the boolean argument records whether the
previous character was a word character (regex `\b` before the match). -/
def namePairScan (up lo : Char → Bool) : Bool → List Char → Bool
  | _, [] => false
  | prevWord, c :: t =>
    (!prevWord && namePairAt up lo (c :: t)) || namePairScan up lo (isWordChar c) t

/-- Regex `\b U L+ \s+ U L+` anywhere in the text. -/
def hasNamePair (up lo : Char → Bool) (cs : List Char) : Bool :=
  namePairScan up lo false cs

/-- The quotation marks of the "title of a work" regex class `["«»]`
(the source class contains a doubled plain quote). -/
def quoteMark (c : Char) : Bool :=
  c == '"' || c == '«' || c == '»'

/-- After an uppercase letter and at least one lowercase letter, can the
lowercase run be ended at a quotation mark (pattern tail `L* ["«»]`)? -/
def titleEndClose (lo : Char → Bool) : List Char → Bool
  | [] => false
  | c :: t => if quoteMark c then true else if lo c then titleEndClose lo t else false

/-- Match `U L+ ["«»]` at the head of the list. -/
def titleEndAt (up lo : Char → Bool) (cs : List Char) : Bool :=
  match cs with
  | c :: t =>
    if up c then
      match t with
      | d :: t₁ => if lo d then titleEndClose lo t₁ else false
      | [] => false
    else false
  | [] => false

/-- Search `U L+ ["«»]` anywhere in the list. -/
def titleEndSearch (up lo : Char → Bool) : List Char → Bool
  | [] => false
  | c :: t => titleEndAt up lo (c :: t) || titleEndSearch up lo t

/-- Regex `["«»] U L+ .* U L+ ["«»]` anywhere in the text (on the
whitespace-collapsed input, which contains no newline, `.` is any char). -/
def hasQuotedTitle (up lo : Char → Bool) : List Char → Bool
  | [] => false
  | c :: t =>
    (quoteMark c &&
      match t with
      | u :: l :: rest => up u && lo l && titleEndSearch up lo rest
      | _ => false) ||
    hasQuotedTitle up lo t

/-- Regex `http[s]?://|www\.|@` with IGNORECASE. -/
def hasUrlOrEmail (cs : List Char) : Bool :=
  let low := cs.map pyLowerChar
  containsSeq ("http://".data) low || containsSeq ("https://".data) low ||
    containsSeq ("www.".data) low || containsSeq ("@".data) low

/-- Regex `(.)\1{4,}`: five or more identical consecutive characters. -/
def hasRepeat5 : List Char → Bool
  | a :: b :: c :: d :: e :: t =>
    (a == b && b == c && c == d && d == e) || hasRepeat5 (b :: c :: d :: e :: t)
  | _ => false

/-- Place/address keywords of import_to_postgres.is_valid_quotation. -/
def place_keywords : List String :=
  ["street", "avenue", "road", "drive",
   "улица", "проспект", "переулок",
   "moscow", "london", "paris"]

/-- Month names of import_to_postgres.is_valid_quotation. -/
def month_names : List String :=
  ["january", "february", "march", "april",
   "may", "june", "july", "august",
   "september", "october", "november", "december",
   "январь", "февраль", "март", "апрель",
   "май", "июнь", "июль", "август",
   "сентябрь", "октябрь", "ноябрь", "декабрь"]

/-- Theatrical/bibliographic keywords of import_to_postgres.is_valid_quotation. -/
def theater_keywords : List String :=
  ["act", "scene", "page", "chapter",
   "акт", "сцена", "страница", "глава"]

/-- The function is_valid_quotation from import_to_postgres.py: the strict content
filter applied before persisting.  Checks run, in source order, over the
whitespace-collapsed copy of the input; the length gate runs first over the
merely `strip()`-ed input. -/
def is_valid_quotation (text : String) : Bool :=
  if text = "" then false
  else if (pyStrip text).length < 20 then false
  else
    let cs := (pyCollapseWs text).data
    if cs.any Char.isDigit then false
    else if hasRomanToken cs then false
    else if hasNamePair isAsciiUpper isAsciiLower cs && !pyIsUpperChar (cs.headD ' ') then false
    else if place_keywords.any (keywordHit cs) then false
    else if hasQuotedTitle isAsciiUpper isAsciiLower cs then false
    else if hasUrlOrEmail cs then false
    else if month_names.any (keywordHit cs) then false
    else if theater_keywords.any (keywordHit cs) then false
    else if hasRepeat5 cs then false
    else true

/-! ### Data model -/

/-- A corpus record as exchanged between harvesters, merge and import
(text, author, source, lang); absent JSON fields are `none`
(`text`/`source` default to the empty string at the read sites). -/
structure Quote where
  text : String
  author : Option String
  source : String
  lang : Option String
deriving DecidableEq, Repr

/-- A persisted row of the quotations table (modulo the serial id and
creation timestamp, which no claim mentions). -/
structure Row where
  text_original : String
  language_original : String
  author : Option String
  source_url : String
  tags : List String
deriving DecidableEq, Repr

/-- The quotations table, as the ordered list of inserted rows. -/
abbrev Store := List Row

/-- The uniqueness invariant of the quotations table: no two rows share
`(text_original, language_original)` (the UNIQUE constraint of
init_quotations_table). -/
def UniqueKeys (s : Store) : Prop :=
  s.Pairwise fun a b =>
    ¬(a.text_original = b.text_original ∧ a.language_original = b.language_original)

/-- The stats dict returned by import_to_postgres. -/
structure ImportStats where
  loaded : Nat
  saved : Nat
  skipped : Nat
  errors : Nat
deriving DecidableEq, Repr

/-! ### merge_quotes.py -/

/-- The dedup key of merge_quotes.py: `q.get("text", "").strip().lower()`.
Language is not part of the key and internal whitespace is not collapsed. -/
def mergeKey (q : Quote) : String :=
  pyLowerStr (pyStrip q.text)

/-- One iteration of the dedup loop of merge_quotes.py: append the record
only if its key is truthy (nonempty) and unseen, then mark it seen. -/
def mergeStep (st : List String × List Quote) (q : Quote) : List String × List Quote :=
  if mergeKey q ≠ "" ∧ mergeKey q ∉ st.1 then (mergeKey q :: st.1, st.2 ++ [q]) else st

/-- merge_quotes over already-parsed input files (file IO and the glob are
at the boundary; per-file JSON errors are caught and skip the file). -/
def merge_quotes (files : List (List Quote)) : List Quote :=
  (files.foldl (fun st qs => qs.foldl mergeStep st) ([], [])).2

/-! ### import_to_postgres.py -/

/-- The duplicate-check SELECT: does a row with this
`(text_original, language_original)` exist? -/
def keyExists (store : Store) (text lang : String) : Bool :=
  store.any fun r => r.text_original == text && r.language_original == lang

/-- The per-record body of the import loop of import_to_postgres.py:
strip the text, default the language to "en", skip empties, invalid texts
and duplicates, insert otherwise. -/
def importQuote (st : ImportStats × Store) (q : Quote) : ImportStats × Store :=
  if pyStrip q.text = "" then
    ({ st.1 with skipped := st.1.skipped + 1 }, st.2)
  else if is_valid_quotation (pyStrip q.text) = false then
    ({ st.1 with skipped := st.1.skipped + 1 }, st.2)
  else if keyExists st.2 (pyStrip q.text) (q.lang.getD ("en")) then
    ({ st.1 with skipped := st.1.skipped + 1 }, st.2)
  else
    ({ st.1 with saved := st.1.saved + 1 },
     st.2 ++ [Row.mk (pyStrip q.text) (q.lang.getD ("en")) q.author q.source (["general"])])

/-- import_to_postgres over a pre-parsed corpus.  `corpus = none` models a
missing/unreadable input file (caught; zero stats, store untouched).
`dbUrl = none` models an absent DB_URL: get_db_connection raises
ValueError, which the outer handler catches after `loaded` was already
set, leaving the store untouched. -/
def import_to_postgres (corpus : Option (List Quote)) (dbUrl : Option String)
    (clear_existing : Bool) (store : Store) : ImportStats × Store :=
  match corpus with
  | none => (ImportStats.mk 0 0 0 0, store)
  | some quotes =>
    match dbUrl with
    | none => (ImportStats.mk quotes.length 0 0 0, store)
    | some _ =>
      let store0 := if clear_existing then [] else store
      quotes.foldl importQuote (ImportStats.mk quotes.length 0 0 0, store0)

/-! ### harvest_pipeline.py -/

/-- Observable outcome of one harvester subprocess: completed with a return
code and combined stdout+stderr, killed by the 1-hour timeout, or an
unexpected exception while launching. -/
inductive ScriptOutcome where
  | completed (returncode : Int) (output : String)
  | timedOut
  | exn (message : String)
deriving DecidableEq, Repr

/-- The `timeout=3600` argument of subprocess.run in run_harvest_script. -/
def harvest_script_timeout_seconds : Nat := 3600

/-- The closed list of acceptable harvest-error signatures. -/
def acceptable_errors : List String :=
  ["not accessible", "Connection refused", "ConnectionError",
   "Connection timeout", "Max retries exceeded", "No connection could be made",
   "actively refused", "is down or blocked", "rate limit",
   "403", "404", "No quotes found", "Site structure changed"]

/-- is_harvest_error_acceptable: case-insensitive substring search of any
acceptable signature in the error output. -/
def is_harvest_error_acceptable (error_output : String) : Bool :=
  acceptable_errors.any fun e =>
    containsSeq (e.data.map pyLowerChar) (error_output.data.map pyLowerChar)

/-- Case-insensitive literal matcher: `lit` is pre-lowercased. -/
def matchLitCI : List Char → List Char → Option (List Char)
  | [], rest => some rest
  | _ :: _, [] => none
  | l :: ls, c :: t => if pyLowerChar c == l then matchLitCI ls t else none

/-- Regex `\s+` (maximal munch, forced here since a non-\s token follows). -/
def matchWs1 : List Char → Option (List Char)
  | c :: t => if pyIsSpace c then some (t.dropWhile pyIsSpace) else none
  | [] => none

/-- Digit-list to number, as Python int() of the captured group. -/
def digitsToNat (ds : List Char) : Nat :=
  ds.foldl (fun n c => n * 10 + (c.toNat - '0'.toNat)) 0

/-- Regex `(\d+)` (maximal munch, forced before a non-digit token). -/
def matchDigits1 : List Char → Option (Nat × List Char)
  | c :: t =>
    if c.isDigit then
      some (digitsToNat ((c :: t).takeWhile Char.isDigit), (c :: t).dropWhile Char.isDigit)
    else none
  | [] => none

/-- Regex `\w+\.json` (the `\w+` munch is forced by the following dot). -/
def matchWordDotJson (cs : List Char) : Option (List Char) :=
  match cs with
  | c :: t =>
    if isWordChar c then
      match (c :: t).dropWhile isWordChar with
      | '.' :: r => matchLitCI ("json".data) r
      | _ => none
    else none
  | [] => none

/-- Pattern `Saved\s+(\d+)\s+quotes` at a position. -/
def patSavedQuotes (cs : List Char) : Option Nat :=
  (matchLitCI ("saved".data) cs).bind fun r1 =>
  (matchWs1 r1).bind fun r2 =>
  (matchDigits1 r2).bind fun nr =>
  (matchWs1 nr.2).bind fun r4 =>
  (matchLitCI ("quotes".data) r4).map fun _ => nr.1

/-- Pattern `Saved\s+(\d+)\s+цитат` at a position. -/
def patSavedTsitat (cs : List Char) : Option Nat :=
  (matchLitCI ("saved".data) cs).bind fun r1 =>
  (matchWs1 r1).bind fun r2 =>
  (matchDigits1 r2).bind fun nr =>
  (matchWs1 nr.2).bind fun r4 =>
  (matchLitCI ("цитат".data) r4).map fun _ => nr.1

/-- Pattern `(\d+)\s+quotes\s+to\s+\w+\.json` at a position. -/
def patQuotesToJson (cs : List Char) : Option Nat :=
  (matchDigits1 cs).bind fun nr =>
  (matchWs1 nr.2).bind fun r2 =>
  (matchLitCI ("quotes".data) r2).bind fun r3 =>
  (matchWs1 r3).bind fun r4 =>
  (matchLitCI ("to".data) r4).bind fun r5 =>
  (matchWs1 r5).bind fun r6 =>
  (matchWordDotJson r6).map fun _ => nr.1

/-- Pattern `(\d+)\s+цитат\s+в\s+\w+\.json` at a position. -/
def patTsitatVJson (cs : List Char) : Option Nat :=
  (matchDigits1 cs).bind fun nr =>
  (matchWs1 nr.2).bind fun r2 =>
  (matchLitCI ("цитат".data) r2).bind fun r3 =>
  (matchWs1 r3).bind fun r4 =>
  (matchLitCI ("в".data) r4).bind fun r5 =>
  (matchWs1 r5).bind fun r6 =>
  (matchWordDotJson r6).map fun _ => nr.1

/-- Pattern `Total\s+quotes:\s+(\d+)` at a position. -/
def patTotalQuotes (cs : List Char) : Option Nat :=
  (matchLitCI ("total".data) cs).bind fun r1 =>
  (matchWs1 r1).bind fun r2 =>
  (matchLitCI ("quotes:".data) r2).bind fun r3 =>
  (matchWs1 r3).bind fun r4 =>
  (matchDigits1 r4).map fun nr => nr.1

/-- Pattern `Всего\s+цитат:\s+(\d+)` at a position. -/
def patVsegoTsitat (cs : List Char) : Option Nat :=
  (matchLitCI ("всего".data) cs).bind fun r1 =>
  (matchWs1 r1).bind fun r2 =>
  (matchLitCI ("цитат:".data) r2).bind fun r3 =>
  (matchWs1 r3).bind fun r4 =>
  (matchDigits1 r4).map fun nr => nr.1

/-- re.search: try the pattern at every position, leftmost match wins. -/
def searchPat (pat : List Char → Option Nat) : List Char → Option Nat
  | [] => pat []
  | c :: t =>
    match pat (c :: t) with
    | some n => some n
    | none => searchPat pat t

/-- extract_quotes_count: first pattern (in source order) with a match
anywhere in the output wins; -1 when none matches. -/
def extract_quotes_count (output : String) : Int :=
  match (searchPat patSavedQuotes output.data).orElse
          (fun _ => (searchPat patSavedTsitat output.data).orElse
          (fun _ => (searchPat patQuotesToJson output.data).orElse
          (fun _ => (searchPat patTsitatVJson output.data).orElse
          (fun _ => (searchPat patTotalQuotes output.data).orElse
          (fun _ => searchPat patVsegoTsitat output.data))))) with
  | some n => (n : Int)
  | none => -1

/-- Python `s.split('\n')` on a character list. -/
def splitOnNl : List Char → List (List Char)
  | [] => [[]]
  | c :: t =>
    if c == '\n' then [] :: splitOnNl t
    else
      match splitOnNl t with
      | h :: r => (c :: h) :: r
      | [] => [[c]]

/-- extract_errors: lines mentioning error/warning (case-insensitive) that
are not acceptable failures, stripped, first ten. -/
def extract_errors (output : String) : List String :=
  (((splitOnNl output.data).filter fun line =>
      (containsSeq ("error".data) (line.map pyLowerChar) ||
       containsSeq ("warning".data) (line.map pyLowerChar)) &&
      !is_harvest_error_acceptable ⟨line⟩).map
    fun line => pyStrip ⟨line⟩).take 10

/-- Python slice `s[:n]`. -/
def takeStr (n : Nat) (s : String) : String :=
  ⟨s.data.take n⟩

/-- The tuple returned by run_harvest_script:
(success, message, quotes count, extracted errors). -/
structure ScriptResult where
  success : Bool
  message : String
  quotes_count : Int
  errors : List String
deriving DecidableEq, Repr

/-- run_harvest_script of harvest_pipeline.py over the subprocess outcome.
On timeout the partial output is discarded entirely. -/
def run_harvest_script (outcome : ScriptOutcome) : ScriptResult :=
  match outcome with
  | .completed rc out =>
    if rc = 0 then
      ScriptResult.mk true ("Success") (extract_quotes_count out) (extract_errors out)
    else if is_harvest_error_acceptable out then
      ScriptResult.mk false ("Acceptable error (site unavailable)") 0 (extract_errors out)
    else
      ScriptResult.mk false ("Error: " ++ takeStr 200 out) 0 (extract_errors out)
  | .timedOut => ScriptResult.mk false ("Timeout") 0 []
  | .exn e => ScriptResult.mk false ("Exception: " ++ e) 0 []

/-- The three buckets of the harvest stage. -/
inductive HarvestClass where
  | success
  | acceptableSkip
  | failed
deriving DecidableEq, Repr

/-- The classification branches of run_harvest_stage:
success / `"Acceptable" in message` / failed. -/
def classify_script_result (r : ScriptResult) : HarvestClass :=
  if r.success then HarvestClass.success
  else if containsSeq ("Acceptable".data) r.message.data then HarvestClass.acceptableSkip
  else HarvestClass.failed

/-- The harvest-stage slice of the pipeline stats dict. -/
structure HarvestStats where
  total : Nat
  success : Nat
  failed : Nat
  skipped : Nat
  total_quotes : Int
  error_entries : List (String × List String)
deriving DecidableEq, Repr

/-- Per-script stats accumulation of run_harvest_stage. -/
def harvestStep (st : HarvestStats) (r : ScriptResult) : HarvestStats :=
  match classify_script_result r with
  | HarvestClass.success =>
    let st1 := { st with success := st.success + 1 }
    let st2 := if 0 ≤ r.quotes_count then
        { st1 with total_quotes := st1.total_quotes + r.quotes_count } else st1
    if r.errors = [] then st2
    else { st2 with error_entries := st2.error_entries ++ [(r.message, r.errors)] }
  | HarvestClass.acceptableSkip => { st with skipped := st.skipped + 1 }
  | HarvestClass.failed =>
    { st with failed := st.failed + 1,
              error_entries := st.error_entries ++ [(r.message, r.errors)] }

/-- run_harvest_stage: returns (at least one script succeeded, stats);
returns true immediately when skipped, false when no scripts exist. -/
def run_harvest_stage (skip_harvest : Bool) (scripts : List ScriptOutcome) :
    Bool × HarvestStats :=
  if skip_harvest then (true, HarvestStats.mk 0 0 0 0 0 [])
  else if scripts = [] then (false, HarvestStats.mk 0 0 0 0 0 [])
  else
    let st := scripts.foldl (fun s o => harvestStep s (run_harvest_script o))
      (HarvestStats.mk scripts.length 0 0 0 0 [])
    (0 < st.success, st)

/-- run_merge_stage: merge the present input files; the stage fails when an
exception escapes (modelled by `writeFails`, the output-file write) or when
the merged corpus is empty. -/
def run_merge_stage (skip_merge : Bool) (files : List (List Quote)) (writeFails : Bool) :
    Bool × Nat :=
  if skip_merge then (true, 0)
  else if writeFails then (false, 0)
  else (0 < (merge_quotes files).length, (merge_quotes files).length)

/-- run_import_stage: its own `os.path.exists` check fails the stage before
import_to_postgres is ever invoked; otherwise the stage succeeds iff the
importer saved or skipped anything. -/
def run_import_stage (skip_import : Bool) (clear_db : Bool)
    (corpusFile : Option (List Quote)) (dbUrl : Option String) (store : Store) :
    Bool × ImportStats × Store :=
  if skip_import then (true, ImportStats.mk 0 0 0 0, store)
  else
    match corpusFile with
    | none => (false, ImportStats.mk 0 0 0 0, store)
    | some quotes =>
      let res := import_to_postgres (some quotes) dbUrl clear_db store
      (0 < res.1.saved || 0 < res.1.skipped, res.1, res.2)

/-- CLI flags of harvest_pipeline.py. -/
structure PipelineConfig where
  skip_harvest : Bool
  skip_merge : Bool
  skip_import : Bool
  clear_db : Bool
  stats_only : Bool
deriving DecidableEq, Repr

/-- The external world of one pipeline run: harvester subprocess outcomes,
the parsed harvest output files, whether writing the merged corpus fails,
the corpus file content (none = file absent), and the DB_URL variable. -/
structure PipelineEnv where
  scripts : List ScriptOutcome
  mergeFiles : List (List Quote)
  mergeWriteFails : Bool
  corpusFile : Option (List Quote)
  dbUrl : Option String

/-- The three pipeline stages, for recording execution order. -/
inductive Stage where
  | harvest
  | merge
  | importStage
deriving DecidableEq, Repr

/-- HarvestPipeline.run: harvest (failure only warns), then merge (failure
aborts), then import (failure aborts).  Returns (overall success, the
stages actually executed in order, final store). -/
def pipeline_run (cfg : PipelineConfig) (env : PipelineEnv) (store : Store) :
    Bool × List Stage × Store :=
  if cfg.stats_only then (true, [], store)
  else
    let _hRes := run_harvest_stage cfg.skip_harvest env.scripts
    let tH : List Stage := if cfg.skip_harvest then [] else [Stage.harvest]
    let tM : List Stage := if cfg.skip_merge then [] else [Stage.merge]
    if (run_merge_stage cfg.skip_merge env.mergeFiles env.mergeWriteFails).1 = false then
      (false, tH ++ tM, store)
    else
      let tI : List Stage := if cfg.skip_import then [] else [Stage.importStage]
      let res := run_import_stage cfg.skip_import cfg.clear_db env.corpusFile env.dbUrl store
      if res.1 = false then (false, tH ++ tM ++ tI, res.2.2)
      else (true, tH ++ tM ++ tI, res.2.2)

/-- main: `sys.exit(0 if success else 1)`. -/
def pipeline_exit_code (cfg : PipelineConfig) (env : PipelineEnv) (store : Store) : Nat :=
  if (pipeline_run cfg env store).1 then 0 else 1

/-- A concrete pipeline environment whose DB_URL is absent while the
harvester, merge input and corpus file are all healthy. -/
def envNoDbUrl : PipelineEnv :=
  PipelineEnv.mk [ScriptOutcome.completed 0 ("Saved 5 quotes")]
    [[Quote.mk ("Break the ice means to start a conversation and ease tension.")
      none ("s1") (some ("en"))]]
    false
    (some [Quote.mk ("Break the ice means to start a conversation and ease tension.")
      none ("s1") (some ("en"))])
    none

/-! ### harvest_citaty_net.py -/

/-- Place keywords of the citaty_net copy of is_valid_quotation. -/
def citaty_place_keywords : List String :=
  ["улица", "проспект", "переулок",
   "москва", "лондон", "париж",
   "street", "avenue", "road"]

/-- Month names of the citaty_net copy of is_valid_quotation. -/
def citaty_month_names : List String :=
  ["январь", "февраль", "март", "апрель",
   "май", "июнь", "июль", "август",
   "сентябрь", "октябрь", "ноябрь", "декабрь",
   "january", "february", "march", "april"]

/-- Theatrical keywords of the citaty_net copy of is_valid_quotation. -/
def citaty_theater_keywords : List String :=
  ["акт", "сцена", "страница", "глава",
   "act", "scene", "page", "chapter"]

/-- The citaty_net copy of is_valid_quotation: same shape as the importer
version, but the proper-name and quoted-title regexes use Cyrillic letter
classes and the keyword lists differ. -/
def citaty_is_valid_quotation (text : String) : Bool :=
  if text = "" then false
  else if (pyStrip text).length < 20 then false
  else
    let cs := (pyCollapseWs text).data
    if cs.any Char.isDigit then false
    else if hasRomanToken cs then false
    else if hasNamePair isCyrUpper isCyrLower cs && !pyIsUpperChar (cs.headD ' ') then false
    else if citaty_place_keywords.any (keywordHit cs) then false
    else if hasQuotedTitle isCyrUpper isCyrLower cs then false
    else if hasUrlOrEmail cs then false
    else if citaty_month_names.any (keywordHit cs) then false
    else if citaty_theater_keywords.any (keywordHit cs) then false
    else if hasRepeat5 cs then false
    else true

/-- Find the end of a regex `<[^>]+>` tag: at least one non-`>` character,
then the first `>`. -/
def findTagEndAfter1 : List Char → Option (List Char)
  | [] => none
  | c :: t => if c == '>' then some t else findTagEndAfter1 t

/-- As findTagEndAfter1, but fails on an immediate `>` (the `+` of the
pattern requires one character inside the tag). -/
def findTagEnd : List Char → Option (List Char)
  | [] => none
  | c :: t => if c == '>' then none else findTagEndAfter1 t

/-- Worker for `removeTags`; the fuel only bounds recursion depth and every
step consumes at least one character, so `fuel = cs.length` is exact. -/
def removeTagsFuel : Nat → List Char → List Char
  | 0, cs => cs
  | _, [] => []
  | fuel + 1, c :: t =>
    if c == '<' then
      match findTagEnd t with
      | some rest => removeTagsFuel fuel rest
      | none => c :: removeTagsFuel fuel t
    else c :: removeTagsFuel fuel t

/-- re.sub of `<[^>]+>` with the empty string. -/
def removeTags (cs : List Char) : List Char :=
  removeTagsFuel cs.length cs

mutual

/-- re.sub of `\n+` with a single space (outside a newline run). -/
def squashNl : List Char → List Char
  | [] => []
  | c :: t => if c == '\n' then ' ' :: squashNlRun t else c :: squashNl t

/-- re.sub of `\n+` with a single space (inside a newline run). -/
def squashNlRun : List Char → List Char
  | [] => []
  | c :: t => if c == '\n' then squashNlRun t else c :: squashNl t

end

/-- clean_text of harvest_citaty_net.py: collapse whitespace, drop HTML
tags, squash newlines, strip. -/
def citaty_clean_text (s : String) : String :=
  if s = "" then s
  else ⟨pyStripL (squashNl (removeTags (pyCollapseL s.data)))⟩

/-- Observable result of fetching one URL: a requests-level exception
(connection refused, timeout, TLS, raise_for_status), a 404, or a parsed
page whose source-specific extraction produced the given candidate
elements (text and optional author found next to it). -/
inductive FetchResult where
  | requestError
  | notFound
  | ok (elements : List (String × Option String))
deriving DecidableEq, Repr

def citaty_base_url : String := "https://ru.citaty.net"

/-- The three endpoint variants tried for each page. -/
def citaty_url_patterns (page : Nat) : List String :=
  [citaty_base_url ++ "/tsitaty/?page=" ++ toString page,
   citaty_base_url ++ "/tsitaty/page/" ++ toString page ++ "/",
   citaty_base_url ++ "/?page=" ++ toString page]

/-- The inner URL-variant loop: first variant that yields a page with a
nonempty element list wins; exceptions and 404s fall through to the next
variant. -/
def citaty_try_urls (fetch : String → FetchResult) : List String →
    Option (List (String × Option String))
  | [] => none
  | url :: rest =>
    match fetch url with
    | FetchResult.requestError => citaty_try_urls fetch rest
    | FetchResult.notFound => citaty_try_urls fetch rest
    | FetchResult.ok elements =>
      if elements = [] then citaty_try_urls fetch rest else some elements

/-- Per-element processing: clean, require a Cyrillic letter, length at
least 20 and validity, then append the labeled record. -/
def citaty_process_element (quotes : List Quote) (e : String × Option String) : List Quote :=
  if (citaty_clean_text e.1).data.any isCyrLetter = false then quotes
  else if 20 ≤ (citaty_clean_text e.1).length ∧
      citaty_is_valid_quotation (citaty_clean_text e.1) = true then
    quotes ++ [Quote.mk (citaty_clean_text e.1) (e.2.map citaty_clean_text)
      ("citaty_net") (some ("ru"))]
  else quotes

/-- The outcome of one harvester run: the collected records, plus the
warning logged when the page loop stopped early (if it did). -/
structure HarvestRunResult where
  records : List Quote
  earlyStop : Option String
deriving DecidableEq, Repr

/-- The page loop of harvest_citaty_net: when no URL variant of a page
yields elements, log "No quotes found on page N" and stop. -/
def citaty_pages (fetch : String → FetchResult) : Nat → Nat → List Quote → HarvestRunResult
  | 0, _, acc => HarvestRunResult.mk acc none
  | fuel + 1, page, acc =>
    match citaty_try_urls fetch (citaty_url_patterns page) with
    | none => HarvestRunResult.mk acc (some ("No quotes found on page " ++ toString page))
    | some elements =>
      citaty_pages fetch fuel (page + 1) (elements.foldl citaty_process_element acc)

/-- harvest_citaty_net(max_pages) over the network oracle `fetch`: a total
function — every per-page and per-request error is handled inside. -/
def harvest_citaty_net (max_pages : Nat) (fetch : String → FetchResult) : HarvestRunResult :=
  citaty_pages fetch max_pages 1 []

/-! ### Lemmas about the merge fold -/

theorem mergeFold_inv (qs : List Quote) (st : List String × List Quote)
    (hseen : ∀ a ∈ st.2, mergeKey a ∈ st.1)
    (hpw : st.2.Pairwise fun a b => mergeKey a ≠ mergeKey b) :
    (∀ a ∈ (qs.foldl mergeStep st).2, mergeKey a ∈ (qs.foldl mergeStep st).1) ∧
    ((qs.foldl mergeStep st).2.Pairwise fun a b => mergeKey a ≠ mergeKey b) ∧
    (∀ a ∈ (qs.foldl mergeStep st).2, a ∈ st.2 ∨ a ∈ qs) := by
  induction qs generalizing st with
  | nil =>
    exact ⟨hseen, hpw, fun a ha => Or.inl ha⟩
  | cons q qs ih =>
    rw [List.foldl_cons]
    by_cases hc : mergeKey q ≠ "" ∧ mergeKey q ∉ st.1
    · have hst1 : mergeStep st q = (mergeKey q :: st.1, st.2 ++ [q]) := by
        unfold mergeStep
        exact if_pos hc
      rw [hst1]
      have hseen1 : ∀ a ∈ st.2 ++ [q], mergeKey a ∈ mergeKey q :: st.1 := by
        intro a ha
        rcases List.mem_append.1 ha with h | h
        · exact List.mem_cons_of_mem _ (hseen a h)
        · rw [List.mem_singleton.1 h]
          exact List.mem_cons_self _ _
      have hpw1 : (st.2 ++ [q]).Pairwise fun a b => mergeKey a ≠ mergeKey b := by
        rw [List.pairwise_append]
        refine ⟨hpw, List.pairwise_singleton _ _, ?_⟩
        intro a ha b hb
        rw [List.mem_singleton.1 hb]
        intro hk
        exact hc.2 (hk ▸ hseen a ha)
      obtain ⟨h1, h2, h3⟩ := ih (mergeKey q :: st.1, st.2 ++ [q]) hseen1 hpw1
      refine ⟨h1, h2, fun a ha => ?_⟩
      rcases h3 a ha with h | h
      · rcases List.mem_append.1 h with h | h
        · exact Or.inl h
        · rw [List.mem_singleton.1 h]
          exact Or.inr (List.mem_cons_self _ _)
      · exact Or.inr (List.mem_cons_of_mem _ h)
    · have hst1 : mergeStep st q = st := by
        unfold mergeStep
        exact if_neg hc
      rw [hst1]
      obtain ⟨h1, h2, h3⟩ := ih st hseen hpw
      exact ⟨h1, h2, fun a ha => (h3 a ha).imp id (List.mem_cons_of_mem _)⟩

theorem mergeFold_files_eq_join (files : List (List Quote)) (st : List String × List Quote) :
    files.foldl (fun s qs => qs.foldl mergeStep s) st = files.flatten.foldl mergeStep st := by
  induction files generalizing st with
  | nil => rfl
  | cons f fs ih =>
    rw [List.foldl_cons, List.flatten_cons, List.foldl_append]
    exact ih _

/-! ### Claim theorems: C1 -/

/-- C1 (counterexample): merge_quotes does not key its dedup on the
language: two records with equal text but different language tags are
treated as the same quotation and only the first survives, refuting the
claim that records are distinct quotations whenever their language tags
differ. -/
theorem merge_dedup_ignores_language :
    (Quote.mk ("Time heals all wounds") none ("s1") (some ("en"))).lang ≠
      (Quote.mk ("Time heals all wounds") none ("s2") (some ("ru"))).lang ∧
    merge_quotes
        [[Quote.mk ("Time heals all wounds") none ("s1") (some ("en"))],
         [Quote.mk ("Time heals all wounds") none ("s2") (some ("ru"))]] =
      [Quote.mk ("Time heals all wounds") none ("s1") (some ("en"))] := by
  decide

/-- C1 (amended): merge_quotes deduplicates exactly on the key
`text.strip().lower()` — language is ignored and internal whitespace is not
collapsed; no two retained records share that key, and every retained
record is a verbatim input record (so stored text keeps its original
casing). -/
theorem merge_dedup_key_strip_lower (files : List (List Quote)) :
    ((merge_quotes files).Pairwise fun a b => mergeKey a ≠ mergeKey b) ∧
    ∀ q ∈ merge_quotes files, q ∈ files.flatten := by
  have h := mergeFold_inv files.flatten ([], [])
    (by intro a ha; cases ha) (List.Pairwise.nil)
  unfold merge_quotes
  rw [mergeFold_files_eq_join]
  refine ⟨h.2.1, fun q hq => ?_⟩
  rcases h.2.2 q hq with h1 | h1
  · cases h1
  · exact h1

/-! ### Claim theorems: C4 -/

/-- C4 (counterexample): a text whose whitespace-collapsed length is below
20 can still be accepted by is_valid_quotation, because the length gate
runs on the merely stripped text (leading/trailing whitespace removed)
before internal whitespace is collapsed. -/
theorem is_valid_accepts_short_collapsed_text :
    (pyCollapseWs ("ab                ef")).length < 20 ∧
    is_valid_quotation ("ab                ef") = true := by
  decide

/-- C4 (amended): the minimum-length gate applies to the `strip()`-ed text:
every text whose stripped length is below 20 characters is rejected by
is_valid_quotation. -/
theorem is_valid_rejects_short_stripped_text (t : String)
    (h : (pyStrip t).length < 20) : is_valid_quotation t = false := by
  by_cases h0 : t = ""
  · simp [is_valid_quotation, h0]
  · simp [is_valid_quotation, h0, h]

/-- Witness for is_valid_rejects_short_stripped_text at a concrete input. -/
theorem is_valid_rejects_short_stripped_text_witness :
    (pyStrip ("too short")).length < 20 ∧ is_valid_quotation ("too short") = false :=
  ⟨by decide, is_valid_rejects_short_stripped_text ("too short") (by decide)⟩

/-! ### Lemmas about the import fold -/

theorem importQuote_store_mono (st : ImportStats × Store) (q : Quote) (r : Row)
    (h : r ∈ st.2) : r ∈ (importQuote st q).2 := by
  unfold importQuote
  split
  · exact h
  · split
    · exact h
    · split
      · exact h
      · exact List.mem_append_left _ h

theorem importFold_store_mono (qs : List Quote) (st : ImportStats × Store) (r : Row)
    (h : r ∈ st.2) : r ∈ (qs.foldl importQuote st).2 := by
  induction qs generalizing st with
  | nil => exact h
  | cons q qs ih => exact ih _ (importQuote_store_mono st q r h)

theorem keyExists_mono {s s' : Store} (hsub : ∀ r ∈ s, r ∈ s') (t l : String)
    (h : keyExists s t l = true) : keyExists s' t l = true := by
  unfold keyExists at h ⊢
  rw [List.any_eq_true] at h ⊢
  obtain ⟨r, hr, hp⟩ := h
  exact ⟨r, hsub r hr, hp⟩

theorem importQuote_key_after (st : ImportStats × Store) (q : Quote)
    (hne : pyStrip q.text ≠ "") (hval : is_valid_quotation (pyStrip q.text) = true) :
    keyExists (importQuote st q).2 (pyStrip q.text) (q.lang.getD ("en")) = true := by
  unfold importQuote
  rw [if_neg hne]
  have hv : ¬(is_valid_quotation (pyStrip q.text) = false) := by
    rw [hval]
    simp
  rw [if_neg hv]
  by_cases hk : keyExists st.2 (pyStrip q.text) (q.lang.getD ("en")) = true
  · rw [if_pos hk]
    exact hk
  · rw [if_neg hk]
    unfold keyExists
    rw [List.any_eq_true]
    refine ⟨Row.mk (pyStrip q.text) (q.lang.getD ("en")) q.author q.source (["general"]),
      List.mem_append_right _ (List.mem_singleton_self _), ?_⟩
    simp

theorem importFold_covers (qs : List Quote) (st : ImportStats × Store) :
    ∀ q ∈ qs, pyStrip q.text ≠ "" → is_valid_quotation (pyStrip q.text) = true →
      keyExists (qs.foldl importQuote st).2 (pyStrip q.text) (q.lang.getD ("en")) = true := by
  induction qs generalizing st with
  | nil =>
    intro q hq
    cases hq
  | cons p ps ih =>
    intro q hq hne hval
    rw [List.foldl_cons]
    rcases List.mem_cons.1 hq with hq | hq
    · subst hq
      exact keyExists_mono (fun r hr => importFold_store_mono ps (importQuote st q) r hr) _ _
        (importQuote_key_after st q hne hval)
    · exact ih (importQuote st p) q hq hne hval

theorem importFold_noop (qs : List Quote) (st : ImportStats × Store)
    (h : ∀ q ∈ qs, pyStrip q.text ≠ "" → is_valid_quotation (pyStrip q.text) = true →
         keyExists st.2 (pyStrip q.text) (q.lang.getD ("en")) = true) :
    (qs.foldl importQuote st).1.saved = st.1.saved ∧ (qs.foldl importQuote st).2 = st.2 := by
  induction qs generalizing st with
  | nil => exact ⟨rfl, rfl⟩
  | cons q qs ih =>
    rw [List.foldl_cons]
    have hq : importQuote st q = ({ st.1 with skipped := st.1.skipped + 1 }, st.2) := by
      unfold importQuote
      by_cases h1 : pyStrip q.text = ""
      · rw [if_pos h1]
      · rw [if_neg h1]
        by_cases h2 : is_valid_quotation (pyStrip q.text) = false
        · rw [if_pos h2]
        · have hval : is_valid_quotation (pyStrip q.text) = true := by
            cases hb : is_valid_quotation (pyStrip q.text)
            · exact absurd hb h2
            · rfl
          rw [if_neg h2, if_pos (h q (List.mem_cons_self _ _) h1 hval)]
    rw [hq]
    exact ih ({ st.1 with skipped := st.1.skipped + 1 }, st.2)
      (fun p hp => h p (List.mem_cons_of_mem _ hp))

theorem importQuote_uniq (st : ImportStats × Store) (q : Quote)
    (h : UniqueKeys st.2) : UniqueKeys (importQuote st q).2 := by
  unfold importQuote
  split
  · exact h
  · split
    · exact h
    · split
      · exact h
      · rename_i h3
        unfold UniqueKeys at h ⊢
        rw [List.pairwise_append]
        refine ⟨h, List.pairwise_singleton _ _, ?_⟩
        intro a ha b hb
        rw [List.mem_singleton.1 hb]
        intro hab
        apply h3
        unfold keyExists
        rw [List.any_eq_true]
        refine ⟨a, ha, ?_⟩
        simp only [Bool.and_eq_true, beq_iff_eq]
        exact ⟨hab.1, hab.2⟩

theorem importFold_uniq (qs : List Quote) (st : ImportStats × Store)
    (h : UniqueKeys st.2) : UniqueKeys (qs.foldl importQuote st).2 := by
  induction qs generalizing st with
  | nil => exact h
  | cons q qs ih => exact ih _ (importQuote_uniq st q h)

/-! ### Claim theorems: C2 -/

/-- C2: importing the same corpus a second time against the store produced
by a first import run (no clearing) saves zero new rows and leaves the
store exactly as the first run left it. -/
theorem import_idempotent (quotes : List Quote) (url : String) (store : Store) :
    (import_to_postgres (some quotes) (some url) false
        (import_to_postgres (some quotes) (some url) false store).2).1.saved = 0 ∧
    (import_to_postgres (some quotes) (some url) false
        (import_to_postgres (some quotes) (some url) false store).2).2 =
      (import_to_postgres (some quotes) (some url) false store).2 := by
  have hred : ∀ s : Store, import_to_postgres (some quotes) (some url) false s =
      quotes.foldl importQuote (ImportStats.mk quotes.length 0 0 0, s) := fun s => rfl
  rw [hred, hred]
  exact importFold_noop quotes
    (ImportStats.mk quotes.length 0 0 0,
      (quotes.foldl importQuote (ImportStats.mk quotes.length 0 0 0, store)).2)
    (fun q hq hne hval =>
      importFold_covers quotes (ImportStats.mk quotes.length 0 0 0, store) q hq hne hval)

/-! ### Claim theorems: C3 -/

/-- C3: an import run over any corpus, DB_URL state and clear flag
preserves the store invariant that no two rows share
`(text_original, language_original)`. -/
theorem import_preserves_unique_keys (corpus : Option (List Quote)) (dbUrl : Option String)
    (clear_existing : Bool) (store : Store) (h : UniqueKeys store) :
    UniqueKeys (import_to_postgres corpus dbUrl clear_existing store).2 := by
  match corpus with
  | none => exact h
  | some quotes =>
    match dbUrl with
    | none => exact h
    | some u =>
      cases clear_existing
      · exact importFold_uniq quotes _ h
      · exact importFold_uniq quotes _ List.Pairwise.nil

/-- Witness for import_preserves_unique_keys at a concrete input. -/
theorem import_preserves_unique_keys_witness :
    UniqueKeys ([] : Store) ∧
    UniqueKeys (import_to_postgres
      (some [Quote.mk ("Break the ice means to start a conversation and ease tension.")
        none ("s1") none])
      (some ("postgres://db")) false []).2 :=
  ⟨List.Pairwise.nil, import_preserves_unique_keys _ _ _ _ List.Pairwise.nil⟩

/-! ### Claim theorems: C9 -/

/-- C9: a record with no "lang" field is processed exactly as the same
record tagged "en": the import step treats them identically, and when the
record is nonempty, valid and not yet present under the key (text, "en"),
it is inserted with language_original = "en". -/
theorem import_lang_defaults_to_en (st : ImportStats × Store) (q : Quote)
    (h : q.lang = none) :
    importQuote st q = importQuote st { q with lang := some ("en") } ∧
    (pyStrip q.text ≠ "" → is_valid_quotation (pyStrip q.text) = true →
      keyExists st.2 (pyStrip q.text) ("en") = false →
      (importQuote st q).2 =
        st.2 ++ [Row.mk (pyStrip q.text) ("en") q.author q.source (["general"])]) := by
  have hl : q.lang.getD ("en") = "en" := by
    rw [h]
    rfl
  constructor
  · unfold importQuote
    rw [hl]
    rfl
  · intro h1 h2 h3
    unfold importQuote
    rw [if_neg h1, hl]
    simp [h2, h3]

/-- Witness for import_lang_defaults_to_en at a concrete input. -/
theorem import_lang_defaults_to_en_witness :
    importQuote (ImportStats.mk 0 0 0 0, ([] : Store))
        (Quote.mk ("Break the ice means to start a conversation and ease tension.")
          none ("s1") none) =
      importQuote (ImportStats.mk 0 0 0 0, ([] : Store))
        { Quote.mk ("Break the ice means to start a conversation and ease tension.")
            none ("s1") none with lang := some ("en") } :=
  (import_lang_defaults_to_en (ImportStats.mk 0 0 0 0, ([] : Store)) _ rfl).1

/-! ### Claim theorems: C10 -/

/-- C10: import_to_postgres never raises on a missing/unreadable corpus
file: it returns all-zero stats and leaves the store untouched; the
fatality of a missing corpus comes only from run_import_stage's separate
existence check, which fails the stage without invoking the importer. -/
theorem import_missing_corpus_is_nonfatal (dbUrl : Option String)
    (clear_existing : Bool) (store : Store) :
    import_to_postgres none dbUrl clear_existing store = (ImportStats.mk 0 0 0 0, store) ∧
    run_import_stage false clear_existing none dbUrl store =
      (false, ImportStats.mk 0 0 0 0, store) :=
  ⟨rfl, rfl⟩

/-! ### Claim theorems: C5 -/

/-- C5: with stats-only off, the pipeline exits non-zero exactly when the
merge stage or the import stage reports failure, and the exit code is
entirely independent of the harvest outcomes — in particular a run in
which zero harvesters succeeded never aborts on that account. -/
theorem pipeline_exit_iff_merge_or_import_failed (cfg : PipelineConfig)
    (env : PipelineEnv) (store : Store) (h : cfg.stats_only = false) :
    (pipeline_exit_code cfg env store ≠ 0 ↔
      (run_merge_stage cfg.skip_merge env.mergeFiles env.mergeWriteFails).1 = false ∨
      (run_import_stage cfg.skip_import cfg.clear_db env.corpusFile env.dbUrl store).1 = false) ∧
    ∀ scripts2 : List ScriptOutcome,
      pipeline_exit_code cfg
        (PipelineEnv.mk scripts2 env.mergeFiles env.mergeWriteFails env.corpusFile env.dbUrl)
        store =
      pipeline_exit_code cfg env store := by
  refine ⟨?_, fun scripts2 => rfl⟩
  cases hM : (run_merge_stage cfg.skip_merge env.mergeFiles env.mergeWriteFails).1 <;>
    cases hI : (run_import_stage cfg.skip_import cfg.clear_db env.corpusFile env.dbUrl store).1 <;>
    simp [pipeline_exit_code, pipeline_run, h, hM, hI]

/-- Witness for pipeline_exit_iff_merge_or_import_failed at a concrete
configuration and environment. -/
theorem pipeline_exit_iff_merge_or_import_failed_witness :
    pipeline_exit_code (PipelineConfig.mk false false false false false)
        (PipelineEnv.mk [] [] false none none) ([] : Store) ≠ 0 ↔
      (run_merge_stage false [] false).1 = false ∨
      (run_import_stage false false none none ([] : Store)).1 = false :=
  (pipeline_exit_iff_merge_or_import_failed
    (PipelineConfig.mk false false false false false)
    (PipelineEnv.mk [] [] false none none) ([] : Store) rfl).1

/-! ### Claim theorems: C6 -/

/-- C6 (counterexample): with DB_URL absent from the environment, the
pipeline does not fail at startup: the Harvest stage runs first (the
executed-stage trace is [harvest, merge, import]) and only then does the
run exit non-zero. -/
theorem missing_db_url_does_not_abort_startup :
    envNoDbUrl.dbUrl = none ∧
    (pipeline_run (PipelineConfig.mk false false false false false) envNoDbUrl []).2.1 =
      [Stage.harvest, Stage.merge, Stage.importStage] ∧
    pipeline_exit_code (PipelineConfig.mk false false false false false) envNoDbUrl [] = 1 := by
  decide

theorem run_import_stage_no_db (clear_db : Bool) (corpusFile : Option (List Quote))
    (store : Store) :
    (run_import_stage false clear_db corpusFile none store).1 = false ∧
    (run_import_stage false clear_db corpusFile none store).2.2 = store := by
  cases corpusFile
  · exact ⟨rfl, rfl⟩
  · exact ⟨rfl, rfl⟩

/-- C6 (amended): a missing DB_URL is not a startup check: the pipeline
runs Harvest (when not skipped) and Merge first; the absence surfaces at
the Import stage, where get_db_connection's ValueError is caught inside
import_to_postgres (zero saved/skipped), so the stage fails and the run
exits non-zero with the store unchanged. -/
theorem missing_db_url_fails_at_import_stage (cfg : PipelineConfig) (env : PipelineEnv)
    (store : Store) (h1 : env.dbUrl = none) (h2 : cfg.stats_only = false)
    (h3 : cfg.skip_import = false) :
    (pipeline_run cfg env store).1 = false ∧
    (pipeline_run cfg env store).2.2 = store ∧
    (cfg.skip_harvest = false → Stage.harvest ∈ (pipeline_run cfg env store).2.1) := by
  have hI := run_import_stage_no_db cfg.clear_db env.corpusFile store
  cases hM : (run_merge_stage cfg.skip_merge env.mergeFiles env.mergeWriteFails).1
  · refine ⟨?_, ?_, ?_⟩ <;> simp [pipeline_run, h2, hM]
  · refine ⟨?_, ?_, ?_⟩ <;>
      simp [pipeline_run, h2, h3, h1, hM, hI.1, hI.2]

/-- Witness for missing_db_url_fails_at_import_stage at a concrete input. -/
theorem missing_db_url_fails_at_import_stage_witness :
    (pipeline_run (PipelineConfig.mk false false false false false) envNoDbUrl []).1 = false ∧
    (pipeline_run (PipelineConfig.mk false false false false false) envNoDbUrl []).2.2 = [] ∧
    ((PipelineConfig.mk false false false false false).skip_harvest = false →
      Stage.harvest ∈ (pipeline_run (PipelineConfig.mk false false false false false)
        envNoDbUrl []).2.1) :=
  missing_db_url_fails_at_import_stage (PipelineConfig.mk false false false false false)
    envNoDbUrl [] rfl rfl rfl

/-! ### Claim theorems: C7 -/

/-- C7 (counterexample): a harvester killed by the one-hour timeout is
reported with zero collected records, yet the stage classifies it as a
Failure — not as an AcceptableFailure as the claim requires for the
zero-record case. -/
theorem timeout_not_classified_acceptable :
    (run_harvest_script ScriptOutcome.timedOut).quotes_count = 0 ∧
    classify_script_result (run_harvest_script ScriptOutcome.timedOut) ≠
      HarvestClass.acceptableSkip := by
  decide

/-- C7 (amended): each harvester subprocess is capped at 3600 seconds (one
hour of wall-clock time); on expiry the partial output is discarded and the
script result is (False, "Timeout", 0 records, no errors), which the stage
always classifies as a Failure, regardless of what had been collected. -/
theorem timeout_is_failure_with_discarded_output :
    harvest_script_timeout_seconds = 60 * 60 ∧
    run_harvest_script ScriptOutcome.timedOut =
      ScriptResult.mk false ("Timeout") 0 [] ∧
    classify_script_result (run_harvest_script ScriptOutcome.timedOut) =
      HarvestClass.failed := by
  decide

/-! ### Claim theorems: C8 -/

/-- C8 (counterexample): when every endpoint variant fails with a request
error, the harvester returns an empty run — but its stop marker is the
logged "No quotes found on page 1", not an earlyStopReason "unavailable",
which the code never produces. -/
theorem citaty_unreachable_stop_not_unavailable :
    (harvest_citaty_net 50 (fun _ => FetchResult.requestError)).records = [] ∧
    (harvest_citaty_net 50 (fun _ => FetchResult.requestError)).earlyStop ≠
      some ("unavailable") := by
  decide

theorem citaty_pages_stop (fetch : String → FetchResult) (fuel page : Nat)
    (acc : List Quote)
    (h : citaty_try_urls fetch (citaty_url_patterns page) = none) :
    citaty_pages fetch (fuel + 1) page acc =
      HarvestRunResult.mk acc (some ("No quotes found on page " ++ toString page)) := by
  simp only [citaty_pages]
  rw [h]

/-- C8 (amended): for every network in which all endpoint variants fail
with a request-level error, harvest_citaty_net — a total function, so it
never raises — terminates cleanly after the first page with zero records,
its stop reason being the logged warning "No quotes found on page 1". -/
theorem citaty_unreachable_returns_empty_run (fetch : String → FetchResult)
    (h : ∀ url, fetch url = FetchResult.requestError) :
    harvest_citaty_net 50 fetch =
      HarvestRunResult.mk [] (some ("No quotes found on page 1")) := by
  have h1 : citaty_try_urls fetch (citaty_url_patterns 1) = none := by
    simp [citaty_url_patterns, citaty_try_urls, h]
  show citaty_pages fetch (49 + 1) 1 [] = _
  rw [citaty_pages_stop fetch 49 1 [] h1]
  rfl

/-- Witness for citaty_unreachable_returns_empty_run at the all-refused
network. -/
theorem citaty_unreachable_returns_empty_run_witness :
    harvest_citaty_net 50 (fun _ => FetchResult.requestError) =
      HarvestRunResult.mk [] (some ("No quotes found on page 1")) :=
  citaty_unreachable_returns_empty_run _ (fun _ => rfl)

end Logosphera
